import Mathlib

/-!
Verification of the musicbox repository (music_player.py, music_display.py).

The Python sources are shallowly embedded: each method becomes a pure Lean
function on an explicit state record.  External effects are made explicit:
the `mpg123` subprocess pool is modelled by a supply of fresh process ids
together with the set of ids that are still alive, and the outcome of a
fallible `subprocess.Popen` / `send_signal` call is an explicit boolean
oracle argument.  Wall-clock time (`time.time()`) is passed as an explicit
rational number.  Python `%` on integers is `Int.emod` and `//` is
`Int.fdiv`, both of which agree with Python's floored semantics.
-/

namespace Musicbox

/-! ## Player data model (music_player.py) -/

/-- `PlayerState` enumeration (music_player.py, class PlayerState). -/
inductive PlayerState where
  | STOPPED
  | PLAYING
  | PAUSED
deriving DecidableEq, Repr

/-- A handle to a spawned `mpg123` subprocess: its process id and the file
path it was launched for (`subprocess.Popen(['mpg123', '-q', filepath])`). -/
structure Proc where
  pid : Nat
  path : String
deriving DecidableEq, Repr

/-- The mutable state of `MusicPlayer` (music_player.py, `__init__`),
extended with the explicit process environment: `livePids` is the set of
spawned-and-not-yet-terminated process ids and `nextPid` the fresh-pid
supply.  Fields irrelevant to the verified claims (threads, callbacks,
GPIO pins) are omitted. -/
structure MusicPlayer where
  currentProcess : Option Proc
  playlist : List String
  currentIndex : Int
  state : PlayerState
  volume : Int
  livePids : List Nat
  nextPid : Nat
deriving DecidableEq, Repr

/-- `MusicPlayer.__init__` followed by `load_playlist` loading the given
fixed playlist: no process, index 0, `STOPPED`, volume 80. -/
def initPlayer (playlist : List String) : MusicPlayer :=
  { currentProcess := none
    playlist := playlist
    currentIndex := 0
    state := PlayerState.STOPPED
    volume := 80
    livePids := []
    nextPid := 0 }

/-- `MusicPlayer.set_volume`: `self.volume = max(0, min(100, volume))`.
The `amixer` push is fire-and-forget and does not touch player state. -/
def set_volume (p : MusicPlayer) (volume : Int) : MusicPlayer :=
  { p with volume := max 0 (min 100 volume) }

/-- `MusicPlayer.volume_up(step)`: `set_volume(self.volume + step)`
(default step 5; the rotary encoder uses step 2). -/
def volume_up (p : MusicPlayer) (step : Int) : MusicPlayer :=
  set_volume p (p.volume + step)

/-- `MusicPlayer.volume_down(step)`: `set_volume(self.volume - step)`. -/
def volume_down (p : MusicPlayer) (step : Int) : MusicPlayer :=
  set_volume p (p.volume - step)

/-- `MusicPlayer.stop`: if a process handle is held, terminate it (graceful
terminate, then kill after the 2s timeout - either way the process ends and
its pid leaves the live set), drop the handle and go to `STOPPED`;
otherwise do nothing. -/
def stop (p : MusicPlayer) : MusicPlayer :=
  match p.currentProcess with
  | some q =>
      { p with currentProcess := none
               state := PlayerState.STOPPED
               livePids := p.livePids.filter (fun pid => pid ≠ q.pid) }
  | none => p

/-- `MusicPlayer.play_file(filepath)`: first `stop()` if a handle is held,
then `Popen` a fresh process.  `ok` is the outcome of the `Popen` call:
on success the new handle is stored and the state becomes `PLAYING`; if
`Popen` raises (`FileNotFoundError` or any other exception) the handle
assignment never happens and the state is set to `STOPPED`. -/
def play_file (p : MusicPlayer) (filepath : String) (ok : Bool) : MusicPlayer :=
  let p1 := if p.currentProcess.isSome then stop p else p
  if ok then
    { p1 with currentProcess := some ⟨p1.nextPid, filepath⟩
              livePids := p1.nextPid :: p1.livePids
              nextPid := p1.nextPid + 1
              state := PlayerState.PLAYING }
  else
    { p1 with state := PlayerState.STOPPED }

/-- `MusicPlayer.play_next`: if the playlist is non-empty,
`current_index = (current_index + 1) % len(playlist)` and play that track. -/
def play_next (p : MusicPlayer) (ok : Bool) : MusicPlayer :=
  if p.playlist.isEmpty then p
  else
    let i := (p.currentIndex + 1) % (p.playlist.length : Int)
    let p1 := { p with currentIndex := i }
    play_file p1 (p1.playlist.getD i.toNat "") ok

/-- `MusicPlayer.play_previous`: if the playlist is non-empty,
`current_index = (current_index - 1) % len(playlist)` and play that track. -/
def play_previous (p : MusicPlayer) (ok : Bool) : MusicPlayer :=
  if p.playlist.isEmpty then p
  else
    let i := (p.currentIndex - 1) % (p.playlist.length : Int)
    let p1 := { p with currentIndex := i }
    play_file p1 (p1.playlist.getD i.toNat "") ok

/-- `MusicPlayer.pause`: only when a handle is held and state is `PLAYING`,
send SIGSTOP; `ok` is the outcome of `send_signal` (on exception the bare
`except: pass` leaves the state unchanged). -/
def pause (p : MusicPlayer) (ok : Bool) : MusicPlayer :=
  if p.currentProcess.isSome ∧ p.state = PlayerState.PLAYING then
    if ok then { p with state := PlayerState.PAUSED } else p
  else p

/-- `MusicPlayer.resume`: only when a handle is held and state is `PAUSED`,
send SIGCONT; `ok` is the outcome of `send_signal`. -/
def resume (p : MusicPlayer) (ok : Bool) : MusicPlayer :=
  if p.currentProcess.isSome ∧ p.state = PlayerState.PAUSED then
    if ok then { p with state := PlayerState.PLAYING } else p
  else p

/-- `MusicPlayer._encoder_button_callback`: `self.set_volume(80)`
("Encoder button pressed - resetting volume to 80%"). -/
def encoder_button_callback (p : MusicPlayer) : MusicPlayer :=
  set_volume p 80

/-- `MusicPlayer.is_process_running`: a handle is held and `poll()` is
`None`, i.e. the tracked process is still in the live set. -/
def is_process_running (p : MusicPlayer) : Bool :=
  match p.currentProcess with
  | some q => p.livePids.contains q.pid
  | none => false

/-- `MusicPlayer._play_pause_callback`: toggle pause/resume, or start
playback at the current index when stopped and the playlist is non-empty. -/
def play_pause_callback (p : MusicPlayer) (ok : Bool) : MusicPlayer :=
  if p.state = PlayerState.PLAYING then pause p ok
  else if p.state = PlayerState.PAUSED then resume p ok
  else if p.playlist.isEmpty then p
  else play_file p (p.playlist.getD p.currentIndex.toNat "") ok

/-- Interactive-mode digit command: `if 0 <= index < len(playlist)` set
`current_index = index` and play that track, otherwise do nothing. -/
def play_index (p : MusicPlayer) (i : Int) (ok : Bool) : MusicPlayer :=
  if 0 ≤ i ∧ i < (p.playlist.length : Int) then
    let p1 := { p with currentIndex := i }
    play_file p1 (p1.playlist.getD i.toNat "") ok
  else p

/-- The tracked external process exits on its own (the song ends): its pid
leaves the live set; the Python side notices nothing until polled. -/
def proc_exit (p : MusicPlayer) : MusicPlayer :=
  match p.currentProcess with
  | some q => { p with livePids := p.livePids.filter (fun pid => pid ≠ q.pid) }
  | none => p

/-- One iteration of the auto-advance monitor loop:
`if not is_process_running() and state == PLAYING: play_next()`. -/
def monitor_step (p : MusicPlayer) (ok : Bool) : MusicPlayer :=
  if ¬ is_process_running p ∧ p.state = PlayerState.PLAYING then play_next p ok
  else p

/-- The commands that can reach the player between observation points:
the controller commands of the spec plus the hardware callbacks, the
spontaneous death of the external process and the monitor poll.  Fallible
external calls carry their outcome oracle. -/
inductive Cmd where
  | play (i : Int) (ok : Bool)
  | next (ok : Bool)
  | previous (ok : Bool)
  | stopCmd
  | pauseCmd (ok : Bool)
  | resumeCmd (ok : Bool)
  | setVol (v : Int)
  | volUp (s : Int)
  | volDown (s : Int)
  | encBtn
  | playPause (ok : Bool)
  | procDies
  | monitor (ok : Bool)
deriving DecidableEq, Repr

/-- Dispatch of one command. -/
def step (p : MusicPlayer) : Cmd → MusicPlayer
  | Cmd.play i ok => play_index p i ok
  | Cmd.next ok => play_next p ok
  | Cmd.previous ok => play_previous p ok
  | Cmd.stopCmd => stop p
  | Cmd.pauseCmd ok => pause p ok
  | Cmd.resumeCmd ok => resume p ok
  | Cmd.setVol v => set_volume p v
  | Cmd.volUp s => volume_up p s
  | Cmd.volDown s => volume_down p s
  | Cmd.encBtn => encoder_button_callback p
  | Cmd.playPause ok => play_pause_callback p ok
  | Cmd.procDies => proc_exit p
  | Cmd.monitor ok => monitor_step p ok

/-- Run a command sequence from a state. -/
def run (p : MusicPlayer) (cmds : List Cmd) : MusicPlayer :=
  cmds.foldl step p

/-- `clamp(v, lo, hi)` as the spec words it (for the refinement claim about
`set_volume`). -/
def clampSpec (lo hi v : Int) : Int := min hi (max lo v)

/-! ## Process and state invariants -/

/-- The inductive invariant of the player: the pid of any held handle is
below the fresh-pid supply, the live set is empty or exactly the held
handle's pid, and a non-`STOPPED` state implies a handle is held. -/
def PlayerInv (p : MusicPlayer) : Prop :=
  (∀ q, p.currentProcess = some q → q.pid < p.nextPid) ∧
  (p.livePids = [] ∨ ∃ q, p.currentProcess = some q ∧ p.livePids = [q.pid]) ∧
  (p.state ≠ PlayerState.STOPPED → p.currentProcess.isSome = true)

theorem inv_init (pl : List String) : PlayerInv (initPlayer pl) := by
  refine ⟨?_, Or.inl rfl, ?_⟩ <;> simp [initPlayer]

theorem inv_stop {p : MusicPlayer} (h : PlayerInv p) : PlayerInv (stop p) := by
  obtain ⟨h1, h2, h3⟩ := h
  cases hc : p.currentProcess with
  | none => simpa [stop, hc] using ⟨h1, h2, h3⟩
  | some q =>
      refine ⟨?_, Or.inl ?_, ?_⟩
      · simp [stop, hc]
      · rcases h2 with h2 | ⟨q', hq', hl⟩
        · simp [stop, hc, h2]
        · rw [hq'] at hc
          cases hc
          simp [stop, hq', hl]
      · simp [stop, hc]

theorem inv_play_file {p : MusicPlayer} (h : PlayerInv p) (fp : String) (ok : Bool) :
    PlayerInv (play_file p fp ok) ∧
    (play_file p fp ok).livePids = (if ok then [p.nextPid] else []) := by
  obtain ⟨h1, h2, h3⟩ := h
  have hp1 : (if p.currentProcess.isSome then stop p else p).currentProcess = none ∧
      (if p.currentProcess.isSome then stop p else p).livePids = [] ∧
      (if p.currentProcess.isSome then stop p else p).nextPid = p.nextPid := by
    cases hc : p.currentProcess with
    | none =>
        rcases h2 with h2 | ⟨q', hq', _⟩
        · simp [hc, h2]
        · rw [hq'] at hc; cases hc
    | some q =>
        rcases h2 with h2 | ⟨q', hq', hl⟩
        · simp [stop, hc, h2]
        · rw [hq'] at hc
          cases hc
          simp [stop, hq', hl]
  cases ok with
  | true =>
      refine ⟨⟨?_, Or.inr ⟨⟨p.nextPid, fp⟩, ?_, ?_⟩, ?_⟩, ?_⟩ <;>
        simp [play_file, hp1.1, hp1.2.1, hp1.2.2]
  | false =>
      refine ⟨⟨?_, Or.inl ?_, ?_⟩, ?_⟩ <;>
        simp [play_file, hp1.1, hp1.2.1, hp1.2.2]

theorem inv_set_volume {p : MusicPlayer} (h : PlayerInv p) (v : Int) :
    PlayerInv (set_volume p v) := by
  obtain ⟨h1, h2, h3⟩ := h
  exact ⟨h1, h2, h3⟩

theorem inv_pause {p : MusicPlayer} (h : PlayerInv p) (ok : Bool) :
    PlayerInv (pause p ok) := by
  obtain ⟨h1, h2, h3⟩ := h
  unfold pause
  split
  · next hcond =>
      cases ok with
      | true => exact ⟨h1, h2, fun _ => hcond.1⟩
      | false => exact ⟨h1, h2, h3⟩
  · exact ⟨h1, h2, h3⟩

theorem inv_resume {p : MusicPlayer} (h : PlayerInv p) (ok : Bool) :
    PlayerInv (resume p ok) := by
  obtain ⟨h1, h2, h3⟩ := h
  unfold resume
  split
  · next hcond =>
      cases ok with
      | true => exact ⟨h1, h2, fun _ => hcond.1⟩
      | false => exact ⟨h1, h2, h3⟩
  · exact ⟨h1, h2, h3⟩

theorem inv_proc_exit {p : MusicPlayer} (h : PlayerInv p) :
    PlayerInv (proc_exit p) := by
  obtain ⟨h1, h2, h3⟩ := h
  cases hc : p.currentProcess with
  | none => simpa [proc_exit, hc] using ⟨h1, h2, h3⟩
  | some q =>
      refine ⟨?_, Or.inl ?_, ?_⟩
      · simpa [proc_exit, hc] using h1
      · rcases h2 with h2 | ⟨q', hq', hl⟩
        · simp [proc_exit, hc, h2]
        · rw [hq'] at hc
          cases hc
          simp [proc_exit, hq', hl]
      · intro _
        simp [proc_exit, hc]

theorem inv_play_next {p : MusicPlayer} (h : PlayerInv p) (ok : Bool) :
    PlayerInv (play_next p ok) := by
  unfold play_next
  split
  · exact h
  · exact (inv_play_file (p := { p with currentIndex := _ })
      (by obtain ⟨h1, h2, h3⟩ := h; exact ⟨h1, h2, h3⟩) _ _).1

theorem inv_play_previous {p : MusicPlayer} (h : PlayerInv p) (ok : Bool) :
    PlayerInv (play_previous p ok) := by
  unfold play_previous
  split
  · exact h
  · exact (inv_play_file (p := { p with currentIndex := _ })
      (by obtain ⟨h1, h2, h3⟩ := h; exact ⟨h1, h2, h3⟩) _ _).1

theorem inv_play_index {p : MusicPlayer} (h : PlayerInv p) (i : Int) (ok : Bool) :
    PlayerInv (play_index p i ok) := by
  unfold play_index
  split
  · exact (inv_play_file (p := { p with currentIndex := i })
      ⟨h.1, h.2.1, h.2.2⟩ _ _).1
  · exact h

theorem inv_play_pause {p : MusicPlayer} (h : PlayerInv p) (ok : Bool) :
    PlayerInv (play_pause_callback p ok) := by
  unfold play_pause_callback
  split
  · exact inv_pause h ok
  · split
    · exact inv_resume h ok
    · split
      · exact h
      · exact (inv_play_file h _ _).1

theorem inv_monitor {p : MusicPlayer} (h : PlayerInv p) (ok : Bool) :
    PlayerInv (monitor_step p ok) := by
  unfold monitor_step
  split
  · exact inv_play_next h ok
  · exact h

theorem inv_step {p : MusicPlayer} (h : PlayerInv p) (c : Cmd) :
    PlayerInv (step p c) := by
  cases c with
  | play i ok => exact inv_play_index h i ok
  | next ok => exact inv_play_next h ok
  | previous ok => exact inv_play_previous h ok
  | stopCmd => exact inv_stop h
  | pauseCmd ok => exact inv_pause h ok
  | resumeCmd ok => exact inv_resume h ok
  | setVol v => exact inv_set_volume h v
  | volUp s => exact inv_set_volume h _
  | volDown s => exact inv_set_volume h _
  | encBtn => exact inv_set_volume h _
  | playPause ok => exact inv_play_pause h ok
  | procDies => exact inv_proc_exit h
  | monitor ok => exact inv_monitor h ok

theorem inv_run (p : MusicPlayer) (h : PlayerInv p) (cmds : List Cmd) :
    PlayerInv (run p cmds) := by
  induction cmds generalizing p with
  | nil => exact h
  | cons c cs ih => exact ih (step p c) (inv_step h c)

/-! ## Claim C1: at most one live external audio process -/

/-- C1: in every state reachable from the initial player by any command
sequence, at most one external audio process is live; and `play_file`
(the launch path of `play(i)`, `next`, `previous`) terminates the
previously held process before launching, so the old process is never
live after the call. -/
theorem one_live_process_invariant (pl : List String) (cmds : List Cmd) :
    ((run (initPlayer pl) cmds).livePids.length ≤ 1) ∧
    (∀ q fp ok, (run (initPlayer pl) cmds).currentProcess = some q →
      q.pid ∉ (play_file (run (initPlayer pl) cmds) fp ok).livePids) := by
  have hinv := inv_run (initPlayer pl) (inv_init pl) cmds
  constructor
  · rcases hinv.2.1 with h | ⟨q, _, hl⟩
    · simp [h]
    · simp [hl]
  · intro q fp ok hq
    rw [(inv_play_file hinv fp ok).2]
    have hlt := hinv.1 q hq
    cases ok with
    | false => simp
    | true => simp; omega

theorem one_live_process_invariant_witness :
    (Proc.mk 0 "a.mp3").pid ∉
      (play_file (run (initPlayer ["a.mp3"]) [Cmd.play 0 true]) "b.mp3" true).livePids :=
  (one_live_process_invariant ["a.mp3"] [Cmd.play 0 true]).2
    (Proc.mk 0 "a.mp3") "b.mp3" true (by decide)

/-! ## Claim C10: Playing/Paused states always hold a process handle -/

/-- C10: in every reachable state, if the player state is `PLAYING` or
`PAUSED` then a process handle is present; equivalently, whenever the
handle is absent the state is `STOPPED` (so `stop` with no process finds
the machine already stopped). -/
theorem playing_state_has_process (pl : List String) (cmds : List Cmd) :
    ((run (initPlayer pl) cmds).state = PlayerState.PLAYING ∨
       (run (initPlayer pl) cmds).state = PlayerState.PAUSED →
      (run (initPlayer pl) cmds).currentProcess.isSome = true) ∧
    ((run (initPlayer pl) cmds).currentProcess = none →
      (run (initPlayer pl) cmds).state = PlayerState.STOPPED) := by
  have hinv := inv_run (initPlayer pl) (inv_init pl) cmds
  constructor
  · intro hs
    apply hinv.2.2
    rcases hs with h | h <;> simp [h]
  · intro hn
    by_contra hne
    have := hinv.2.2 hne
    simp [hn] at this

theorem playing_state_has_process_witness :
    (run (initPlayer ["a.mp3"]) [Cmd.play 0 true]).currentProcess.isSome = true :=
  (playing_state_has_process ["a.mp3"] [Cmd.play 0 true]).1 (Or.inl (by decide))

/-! ## Claim C2: next/previous wrap modulo the playlist length -/

theorem emod_add_emod_same (a b L : Int) : (a % L + b) % L = (a + b) % L := by
  conv_rhs => rw [Int.add_emod]
  rw [Int.add_emod (a % L) b, Int.emod_emod_of_dvd a dvd_rfl]

theorem emod_sub_emod_same (a b L : Int) : (a % L - b) % L = (a - b) % L := by
  conv_rhs => rw [Int.sub_emod]
  rw [Int.sub_emod (a % L) b, Int.emod_emod_of_dvd a dvd_rfl]

theorem play_next_spec (p : MusicPlayer) (hne : p.playlist ≠ []) :
    (play_next p true).playlist = p.playlist ∧
    (play_next p true).currentIndex = (p.currentIndex + 1) % (p.playlist.length : Int) ∧
    (play_next p true).state = PlayerState.PLAYING ∧
    ∃ q, (play_next p true).currentProcess = some q ∧
      q.path = p.playlist.getD
        ((p.currentIndex + 1) % (p.playlist.length : Int)).toNat "" := by
  have hni : p.playlist.isEmpty = false := by simp [List.isEmpty_iff, hne]
  cases hc : p.currentProcess with
  | none =>
      refine ⟨?_, ?_, ?_, ⟨⟨p.nextPid,
        p.playlist.getD ((p.currentIndex + 1) % (p.playlist.length : Int)).toNat ""⟩,
        ?_, ?_⟩⟩ <;> simp [play_next, hni, play_file, stop, hc]
  | some q =>
      refine ⟨?_, ?_, ?_, ⟨⟨p.nextPid,
        p.playlist.getD ((p.currentIndex + 1) % (p.playlist.length : Int)).toNat ""⟩,
        ?_, ?_⟩⟩ <;> simp [play_next, hni, play_file, stop, hc]

theorem play_previous_spec (p : MusicPlayer) (hne : p.playlist ≠ []) :
    (play_previous p true).playlist = p.playlist ∧
    (play_previous p true).currentIndex = (p.currentIndex - 1) % (p.playlist.length : Int) ∧
    (play_previous p true).state = PlayerState.PLAYING ∧
    ∃ q, (play_previous p true).currentProcess = some q ∧
      q.path = p.playlist.getD
        ((p.currentIndex - 1) % (p.playlist.length : Int)).toNat "" := by
  have hni : p.playlist.isEmpty = false := by simp [List.isEmpty_iff, hne]
  cases hc : p.currentProcess with
  | none =>
      refine ⟨?_, ?_, ?_, ⟨⟨p.nextPid,
        p.playlist.getD ((p.currentIndex - 1) % (p.playlist.length : Int)).toNat ""⟩,
        ?_, ?_⟩⟩ <;> simp [play_previous, hni, play_file, stop, hc]
  | some q =>
      refine ⟨?_, ?_, ?_, ⟨⟨p.nextPid,
        p.playlist.getD ((p.currentIndex - 1) % (p.playlist.length : Int)).toNat ""⟩,
        ?_, ?_⟩⟩ <;> simp [play_previous, hni, play_file, stop, hc]

theorem run_next_replicate (n : Nat) :
    ∀ p : MusicPlayer, p.playlist ≠ [] → 0 ≤ p.currentIndex →
    p.currentIndex < (p.playlist.length : Int) →
    (run p (List.replicate n (Cmd.next true))).playlist = p.playlist ∧
    (run p (List.replicate n (Cmd.next true))).currentIndex
      = (p.currentIndex + n) % (p.playlist.length : Int) ∧
    (0 < n → (run p (List.replicate n (Cmd.next true))).state = PlayerState.PLAYING ∧
      ∃ q, (run p (List.replicate n (Cmd.next true))).currentProcess = some q ∧
        q.path = p.playlist.getD
          (run p (List.replicate n (Cmd.next true))).currentIndex.toNat "") := by
  induction n with
  | zero =>
      intro p hne h0 hL
      refine ⟨rfl, ?_, fun h => absurd h (lt_irrefl 0)⟩
      show p.currentIndex = (p.currentIndex + ((0 : Nat) : Int)) % (p.playlist.length : Int)
      rw [Nat.cast_zero, add_zero, Int.emod_eq_of_lt h0 hL]
  | succ n ih =>
      intro p hne h0 hL
      have hrun : run p (List.replicate (n + 1) (Cmd.next true))
          = run (play_next p true) (List.replicate n (Cmd.next true)) := rfl
      have hs := play_next_spec p hne
      have hLpos : (0 : Int) < (p.playlist.length : Int) := by
        exact_mod_cast List.length_pos.mpr hne
      have hp1ne : (play_next p true).playlist ≠ [] := by rw [hs.1]; exact hne
      have h0' : 0 ≤ (play_next p true).currentIndex := by
        rw [hs.2.1]; exact Int.emod_nonneg _ (by omega)
      have hL1 : (play_next p true).currentIndex
          < ((play_next p true).playlist.length : Int) := by
        rw [hs.2.1, hs.1]; exact Int.emod_lt_of_pos _ hLpos
      have ihp := ih (play_next p true) hp1ne h0' hL1
      refine ⟨?_, ?_, ?_⟩
      · rw [hrun, ihp.1, hs.1]
      · rw [hrun, ihp.2.1, hs.1, hs.2.1, emod_add_emod_same]
        congr 1
        push_cast
        ring
      · intro _
        cases n with
        | zero =>
            refine ⟨?_, ?_⟩
            · rw [hrun]; exact hs.2.2.1
            · obtain ⟨q, hq, hpath⟩ := hs.2.2.2
              refine ⟨q, ?_, ?_⟩
              · rw [hrun]; exact hq
              · rw [hrun]
                show q.path = p.playlist.getD (play_next p true).currentIndex.toNat ""
                rw [hpath, hs.2.1]
        | succ m =>
            have hp := ihp.2.2 (Nat.succ_pos m)
            refine ⟨by rw [hrun]; exact hp.1, ?_⟩
            obtain ⟨q, hq, hpath⟩ := hp.2
            refine ⟨q, by rw [hrun]; exact hq, ?_⟩
            rw [hrun, hpath, hs.1]

theorem run_previous_replicate (n : Nat) :
    ∀ p : MusicPlayer, p.playlist ≠ [] → 0 ≤ p.currentIndex →
    p.currentIndex < (p.playlist.length : Int) →
    (run p (List.replicate n (Cmd.previous true))).playlist = p.playlist ∧
    (run p (List.replicate n (Cmd.previous true))).currentIndex
      = (p.currentIndex - n) % (p.playlist.length : Int) ∧
    (0 < n → (run p (List.replicate n (Cmd.previous true))).state = PlayerState.PLAYING ∧
      ∃ q, (run p (List.replicate n (Cmd.previous true))).currentProcess = some q ∧
        q.path = p.playlist.getD
          (run p (List.replicate n (Cmd.previous true))).currentIndex.toNat "") := by
  induction n with
  | zero =>
      intro p hne h0 hL
      refine ⟨rfl, ?_, fun h => absurd h (lt_irrefl 0)⟩
      show p.currentIndex = (p.currentIndex - ((0 : Nat) : Int)) % (p.playlist.length : Int)
      rw [Nat.cast_zero, sub_zero, Int.emod_eq_of_lt h0 hL]
  | succ n ih =>
      intro p hne h0 hL
      have hrun : run p (List.replicate (n + 1) (Cmd.previous true))
          = run (play_previous p true) (List.replicate n (Cmd.previous true)) := rfl
      have hs := play_previous_spec p hne
      have hLpos : (0 : Int) < (p.playlist.length : Int) := by
        exact_mod_cast List.length_pos.mpr hne
      have hp1ne : (play_previous p true).playlist ≠ [] := by rw [hs.1]; exact hne
      have h0' : 0 ≤ (play_previous p true).currentIndex := by
        rw [hs.2.1]; exact Int.emod_nonneg _ (by omega)
      have hL1 : (play_previous p true).currentIndex
          < ((play_previous p true).playlist.length : Int) := by
        rw [hs.2.1, hs.1]; exact Int.emod_lt_of_pos _ hLpos
      have ihp := ih (play_previous p true) hp1ne h0' hL1
      refine ⟨?_, ?_, ?_⟩
      · rw [hrun, ihp.1, hs.1]
      · rw [hrun, ihp.2.1, hs.1, hs.2.1, emod_sub_emod_same]
        congr 1
        push_cast
        ring
      · intro _
        cases n with
        | zero =>
            refine ⟨?_, ?_⟩
            · rw [hrun]; exact hs.2.2.1
            · obtain ⟨q, hq, hpath⟩ := hs.2.2.2
              refine ⟨q, ?_, ?_⟩
              · rw [hrun]; exact hq
              · rw [hrun]
                show q.path = p.playlist.getD (play_previous p true).currentIndex.toNat ""
                rw [hpath, hs.2.1]
        | succ m =>
            have hp := ihp.2.2 (Nat.succ_pos m)
            refine ⟨by rw [hrun]; exact hp.1, ?_⟩
            obtain ⟨q, hq, hpath⟩ := hp.2
            refine ⟨q, by rw [hrun]; exact hq, ?_⟩
            rw [hrun, hpath, hs.1]

/-- C2: from a non-empty playlist and a valid index, `n` `next` commands
end at index `(i + n) mod L` and `n` `previous` commands end at
`(i - n) mod L` (floored modulus, so the index is always in `[0, L)`),
and for `n > 0` the player is left `PLAYING` the track at the new index.
Instantiating `n` at each `k ≤ n` gives the property after every call. -/
theorem next_previous_index_mod (p : MusicPlayer) (n : Nat)
    (hne : p.playlist ≠ []) (h0 : 0 ≤ p.currentIndex)
    (hL : p.currentIndex < (p.playlist.length : Int)) :
    (run p (List.replicate n (Cmd.next true))).currentIndex
      = (p.currentIndex + n) % (p.playlist.length : Int) ∧
    (run p (List.replicate n (Cmd.previous true))).currentIndex
      = (p.currentIndex - n) % (p.playlist.length : Int) ∧
    (0 ≤ (run p (List.replicate n (Cmd.next true))).currentIndex ∧
      (run p (List.replicate n (Cmd.next true))).currentIndex
        < (p.playlist.length : Int)) ∧
    (0 ≤ (run p (List.replicate n (Cmd.previous true))).currentIndex ∧
      (run p (List.replicate n (Cmd.previous true))).currentIndex
        < (p.playlist.length : Int)) ∧
    (0 < n →
      ((run p (List.replicate n (Cmd.next true))).state = PlayerState.PLAYING ∧
        ∃ q, (run p (List.replicate n (Cmd.next true))).currentProcess = some q ∧
          q.path = p.playlist.getD
            (run p (List.replicate n (Cmd.next true))).currentIndex.toNat "") ∧
      ((run p (List.replicate n (Cmd.previous true))).state = PlayerState.PLAYING ∧
        ∃ q, (run p (List.replicate n (Cmd.previous true))).currentProcess = some q ∧
          q.path = p.playlist.getD
            (run p (List.replicate n (Cmd.previous true))).currentIndex.toNat "")) := by
  have hN := run_next_replicate n p hne h0 hL
  have hP := run_previous_replicate n p hne h0 hL
  have hLpos : (0 : Int) < (p.playlist.length : Int) := by
    exact_mod_cast List.length_pos.mpr hne
  refine ⟨hN.2.1, hP.2.1, ⟨?_, ?_⟩, ⟨?_, ?_⟩, fun hn => ⟨hN.2.2 hn, hP.2.2 hn⟩⟩
  · rw [hN.2.1]; exact Int.emod_nonneg _ (by omega)
  · rw [hN.2.1]; exact Int.emod_lt_of_pos _ hLpos
  · rw [hP.2.1]; exact Int.emod_nonneg _ (by omega)
  · rw [hP.2.1]; exact Int.emod_lt_of_pos _ hLpos

theorem next_previous_index_mod_witness :
    (run (initPlayer ["a.mp3", "b.mp3", "c.mp3"])
        (List.replicate 5 (Cmd.next true))).currentIndex = 2 ∧
    (run (initPlayer ["a.mp3", "b.mp3", "c.mp3"])
        (List.replicate 5 (Cmd.previous true))).currentIndex = 1 := by
  have h := next_previous_index_mod (initPlayer ["a.mp3", "b.mp3", "c.mp3"]) 5
    (by decide) (by decide) (by decide)
  exact ⟨h.1.trans (by decide), h.2.1.trans (by decide)⟩

/-! ## Claim C3: volume clamping -/

/-- C3: `set_volume v` stores exactly `clamp(v, 0, 100)`, and every volume
mutation (`set_volume`, `volume_up`, `volume_down`, any step) leaves the
stored volume in `[0, 100]`. -/
theorem set_volume_clamps (p : MusicPlayer) (v s : Int) :
    (set_volume p v).volume = clampSpec 0 100 v ∧
    0 ≤ (set_volume p v).volume ∧ (set_volume p v).volume ≤ 100 ∧
    0 ≤ (volume_up p s).volume ∧ (volume_up p s).volume ≤ 100 ∧
    0 ≤ (volume_down p s).volume ∧ (volume_down p s).volume ≤ 100 := by
  simp only [set_volume, volume_up, volume_down, clampSpec]
  omega

/-! ## Claim C4: the encoder push-button -/

/-- C4 counterexample: the claim says the encoder push-button never changes
the observable volume; but from stored volume 50 the callback changes it
(to 80). -/
theorem encoder_button_not_noop_cex :
    (encoder_button_callback (set_volume (initPlayer []) 50)).volume ≠
      (set_volume (initPlayer []) 50).volume := by
  decide

/-- C4 amended: the encoder push-button sets the stored volume to the fixed
default 80 (`set_volume(80)`), regardless of the pre-adjustment value; it
is a no-op only when the volume was already 80. -/
theorem encoder_button_resets_to_default (p : MusicPlayer) :
    (encoder_button_callback p).volume = 80 := by
  simp [encoder_button_callback, set_volume]

/-! ## Display data model (music_display.py) -/

/-- An RGB color tuple. -/
structure Color where
  r : Nat
  g : Nat
  b : Nat
deriving DecidableEq, Repr

/-- `self.DARK_BG = (20, 25, 35)`. -/
def DARK_BG : Color := ⟨20, 25, 35⟩

/-- `self.WHITE = (255, 255, 255)`. -/
def WHITE : Color := ⟨255, 255, 255⟩

/-- `self.GREEN = (52, 199, 89)`. -/
def GREEN : Color := ⟨52, 199, 89⟩

/-- `self.GRAY = (142, 142, 147)`. -/
def GRAY : Color := ⟨142, 142, 147⟩

/-- `self.VOLUME_BAR_BG = (60, 65, 75)`. -/
def VOLUME_BAR_BG : Color := ⟨60, 65, 75⟩

/-- `self.width = 320` (after rotation). -/
def screenWidth : Int := 320

/-- `self.height = 240` (after rotation). -/
def screenHeight : Int := 240

/-- Decoded album artwork, as its list of RGB pixels after the 50x50
downsize performed by the color-extraction routine. -/
abbrev Artwork := List Color

/-- The display-side mutable state of `MusicDisplay.__init__` that the
verified claims depend on: the volume-overlay timestamp and the
artwork-derived theme colors (both initially unset). -/
structure DisplayState where
  lastVolumeChangeTime : ℚ
  currentBgColor : Option Color
  currentAccentColor : Option Color
deriving DecidableEq, Repr

/-- `MusicDisplay.__init__`: `last_volume_change_time = 0`,
`current_bg_color = None`, `current_accent_color = None`. -/
def initDisplay : DisplayState := ⟨0, none, none⟩

/-- `MusicDisplay.notify_volume_change`:
`self.last_volume_change_time = time.time()`, with the clock passed
explicitly. -/
def notify_volume_change (d : DisplayState) (now : ℚ) : DisplayState :=
  { d with lastVolumeChangeTime := now }

/-- `MusicDisplay._should_show_volume_bar`: `False` when the timestamp is
still the initial `0` sentinel, otherwise
`(now - last_volume_change_time) < volume_display_duration` (3.0s). -/
def should_show_volume_bar (lastVolumeChangeTime now : ℚ) : Bool :=
  if lastVolumeChangeTime = 0 then false
  else decide (now - lastVolumeChangeTime < 3)

/-- The volume-bar visibility test of `update_now_playing`:
`force_show_volume or self._should_show_volume_bar()`. -/
def volume_bar_visible (force : Bool) (lastVolumeChangeTime now : ℚ) : Bool :=
  force || should_show_volume_bar lastVolumeChangeTime now

/-! ## Claim C6: volume-overlay visibility -/

/-- C6 counterexample: the claim states visibility iff
`force or (now - t) < 3.0` for every timestamp `t`; at the initial
sentinel `t = 0` with `now = 1` the code hides the overlay although
`now - t = 1 < 3`. -/
theorem volume_overlay_iff_cex :
    ¬ ((volume_bar_visible false 0 1 = true) ↔
        (false = true ∨ (1 : ℚ) - 0 < 3)) := by
  intro h
  have h2 : volume_bar_visible false 0 1 = true := h.mpr (Or.inr (by norm_num))
  simp [volume_bar_visible, should_show_volume_bar] at h2

/-- C6 amended: for every timestamp `t` — the `0` "never changed" sentinel
included — the overlay is visible iff the force flag is set, or `t` is not
the sentinel and `now - t < 3.0`; at the sentinel itself visibility equals
the force flag.  After a recorded change (`t ≠ 0`) visibility is monotone
in time, on while `now - t < 3.0` and off once `3.0 ≤ now - t`, so
advancing time past the threshold flips it exactly once. -/
theorem volume_overlay_visibility (f : Bool) (t now n1 n2 : ℚ) :
    (volume_bar_visible f t now = true ↔ (f = true ∨ (t ≠ 0 ∧ now - t < 3))) ∧
    (volume_bar_visible f 0 now = f) ∧
    (t ≠ 0 → n1 ≤ n2 → volume_bar_visible false t n2 = true →
      volume_bar_visible false t n1 = true) ∧
    (t ≠ 0 → n1 - t < 3 → volume_bar_visible false t n1 = true) ∧
    (3 ≤ n2 - t → volume_bar_visible false t n2 = false) := by
  refine ⟨?_, ?_, ?_, ?_, ?_⟩
  · by_cases h0 : t = 0
    · simp [volume_bar_visible, should_show_volume_bar, h0]
    · simp [volume_bar_visible, should_show_volume_bar, h0]
  · simp [volume_bar_visible, should_show_volume_bar]
  · intro ht h12 hvis
    simp [volume_bar_visible, should_show_volume_bar, ht] at hvis ⊢
    linarith
  · intro ht h1
    simp [volume_bar_visible, should_show_volume_bar, ht]
    linarith
  · intro h2
    by_cases h0 : t = 0
    · simp [volume_bar_visible, should_show_volume_bar, h0]
    · simp [volume_bar_visible, should_show_volume_bar, h0]
      linarith

theorem volume_overlay_visibility_witness :
    (volume_bar_visible false 0 2 = false) ∧
    (volume_bar_visible false 1 2 = true) ∧
    (volume_bar_visible false 1 5 = false) :=
  ⟨(volume_overlay_visibility false 0 2 2 5).2.1,
   (volume_overlay_visibility false 1 2 2 5).2.2.2.1 (by norm_num) (by norm_num),
   (volume_overlay_visibility false 1 2 2 5).2.2.2.2 (by norm_num)⟩

/-! ## Claim C5: setVolume records the overlay timer and renders once -/

/-- The combined appliance state: player, display and a count of display
refreshes triggered. -/
structure MusicBoxState where
  player : MusicPlayer
  display : DisplayState
  renders : Nat
deriving Repr

/-- Modelled from the spec: the integration layer that routes
`PlaybackController.setVolume` to the DisplayCompositor is not under
`src/` (nothing in `music_player.py` calls into `music_display.py`).
Per the spec's command table, `setVolume(v)` clamps `v`, pushes it to the
audio output, records the VolumeOverlayTimer and triggers exactly one
display refresh, leaving the player state unchanged.  The clamping
(`MusicPlayer.set_volume`) and the timer recording
(`MusicDisplay.notify_volume_change`) are the source translations above;
only the one-command-one-render wiring between them is taken from the
spec. -/
def system_set_volume (s : MusicBoxState) (v : Int) (now : ℚ) : MusicBoxState :=
  { player := set_volume s.player v
    display := notify_volume_change s.display now
    renders := s.renders + 1 }

/-- C5: in every state, `setVolume(v)` sets the volume-overlay timestamp to
the current time and triggers exactly one display render, while the player
state is unchanged (and the stored volume is clamped). -/
theorem set_volume_records_overlay_and_renders (s : MusicBoxState) (v : Int) (now : ℚ) :
    (system_set_volume s v now).display.lastVolumeChangeTime = now ∧
    (system_set_volume s v now).renders = s.renders + 1 ∧
    (system_set_volume s v now).player.state = s.player.state ∧
    (system_set_volume s v now).player.volume = clampSpec 0 100 v := by
  refine ⟨rfl, rfl, rfl, ?_⟩
  simp only [system_set_volume, set_volume, clampSpec]
  omega

/-! ## Claim C7: text truncation (music_display.py, `_draw_text_with_truncate`) -/

/-- The `"..."` ellipsis appended by the truncation routine. -/
def ellipsisChars : List Char := "...".toList

/-- The `while text_width > max_width and len(text) > 3` loop: drop the last
character and re-measure `width(text + "...")`.  `w` is the font-measuring
function (`textbbox` width).  The loop shortens `text` by one character per
iteration, so `fuel := text.length` makes the structural recursion exact:
the guard `3 < text.length` fails long before the fuel runs out. -/
def truncLoop (w : List Char → Nat) (maxW : Nat) : Nat → List Char → Nat → List Char
  | 0, text, _ => text
  | fuel + 1, text, tw =>
      if maxW < tw ∧ 3 < text.length then
        truncLoop w maxW fuel text.dropLast (w (text.dropLast ++ ellipsisChars))
      else text

/-- `MusicDisplay._draw_text_with_truncate` with a `max_width` given (as in
every call from `update_now_playing`): if the rendered width exceeds
`max_width`, run the shortening loop starting from `width(text)` and append
the ellipsis; otherwise draw the text unchanged. -/
def draw_text_with_truncate (w : List Char → Nat) (text : List Char) (maxW : Nat) :
    List Char :=
  if maxW < w text then truncLoop w maxW text.length text (w text) ++ ellipsisChars
  else text

theorem truncLoop_cases (w : List Char → Nat) (maxW : Nat) :
    ∀ (fuel : Nat) (text : List Char) (tw : Nat), text.length ≤ fuel + 3 →
      (truncLoop w maxW fuel text tw).length ≤ 3 ∨
      w ((truncLoop w maxW fuel text tw) ++ ellipsisChars) ≤ maxW ∨
      ((truncLoop w maxW fuel text tw) = text ∧ tw ≤ maxW) := by
  intro fuel
  induction fuel with
  | zero =>
      intro text tw hle
      exact Or.inl (by simpa [truncLoop] using hle)
  | succ fuel ih =>
      intro text tw hle
      rw [truncLoop]
      split
      · next hcond =>
          have hlen : text.dropLast.length ≤ fuel + 3 := by
            simp only [List.length_dropLast]
            omega
          rcases ih text.dropLast (w (text.dropLast ++ ellipsisChars)) hlen with
            h | h | ⟨heq, hw⟩
          · exact Or.inl h
          · exact Or.inr (Or.inl h)
          · exact Or.inr (Or.inl (by rw [heq]; exact hw))
      · next hcond =>
          rcases not_and_or.mp hcond with h | h
          · exact Or.inr (Or.inr ⟨rfl, by omega⟩)
          · exact Or.inl (by omega)

theorem truncLoop_take (w : List Char → Nat) (maxW : Nat) :
    ∀ (fuel : Nat) (text : List Char) (tw : Nat),
      ∃ j, truncLoop w maxW fuel text tw = text.take j := by
  intro fuel
  induction fuel with
  | zero =>
      intro text tw
      exact ⟨text.length, by simp [truncLoop]⟩
  | succ fuel ih =>
      intro text tw
      rw [truncLoop]
      split
      · obtain ⟨j, hj⟩ := ih text.dropLast (w (text.dropLast ++ ellipsisChars))
        refine ⟨min j (text.length - 1), ?_⟩
        rw [hj, List.dropLast_eq_take, List.take_take]
      · exact ⟨text.length, by simp⟩

/-- C7: for a text whose rendered width exceeds `max_width`, the routine
chops trailing characters (the result's kept part is a `take` of the
original), re-measuring `width(text + "...")` after each removal, until it
fits or only 3 characters remain, then appends the ellipsis; the drawn
result's width can exceed `max_width` only in the 3-character-floor case.
A text that already fits is drawn unchanged, with no ellipsis. -/
theorem truncate_drawn_width (w : List Char → Nat) (text : List Char) (maxW : Nat) :
    (w text ≤ maxW → draw_text_with_truncate w text maxW = text) ∧
    (maxW < w text →
      ∃ core, draw_text_with_truncate w text maxW = core ++ ellipsisChars ∧
        (∃ j, core = text.take j) ∧
        (core.length ≤ 3 ∨ w (core ++ ellipsisChars) ≤ maxW)) := by
  constructor
  · intro h
    unfold draw_text_with_truncate
    rw [if_neg (by omega)]
  · intro h
    unfold draw_text_with_truncate
    rw [if_pos h]
    refine ⟨truncLoop w maxW text.length text (w text), rfl,
      truncLoop_take w maxW text.length text (w text), ?_⟩
    rcases truncLoop_cases w maxW text.length text (w text) (by omega) with
      hc | hc | ⟨_, hc⟩
    · exact Or.inl hc
    · exact Or.inr hc
    · omega

/-- A concrete font-measuring function for the witness: ten pixels per
character. -/
def wTimesTen : List Char → Nat := fun l => 10 * l.length

theorem truncate_drawn_width_witness :
    (draw_text_with_truncate wTimesTen ("abc".toList) 65 = "abc".toList) ∧
    (∃ core, draw_text_with_truncate wTimesTen ("abcdefgh".toList) 65
        = core ++ ellipsisChars ∧
      (∃ j, core = ("abcdefgh".toList).take j) ∧
      (core.length ≤ 3 ∨ wTimesTen (core ++ ellipsisChars) ≤ 65)) :=
  ⟨(truncate_drawn_width wTimesTen ("abc".toList) 65).1 (by decide),
   (truncate_drawn_width wTimesTen ("abcdefgh".toList) 65).2 (by decide)⟩

/-! ## Metadata extraction (music_display.py, `_extract_metadata`,
`paste_album_art`, `_extract_colors_from_artwork`) -/

/-- The ID3 tags the display reads from a track, as far as parsing got:
`none` for the whole record means `MP3(filename)` raised (unreadable
file); a `none` field means the `TIT2` / `TALB` frame is absent. -/
structure Id3Tags where
  title : Option (List Char)
  album : Option (List Char)
deriving DecidableEq, Repr

/-- `"Unknown Album"`. -/
def unknownAlbumName : List Char := "Unknown Album".toList

/-- `filename.rsplit('.', 1)[0]`: the part before the last `'.'`, or the
whole string when there is no `'.'`. -/
def stripLastExt (l : List Char) : List Char :=
  let r := l.reverse
  let i := r.findIdx (fun c => c = '.')
  if i < l.length then (r.drop (i + 1)).reverse else l

/-- `filename.split('/')[-1].rsplit('.', 1)[0]`: base name without its last
extension — the fallback title. -/
def fallbackTitle (filename : List Char) : List Char :=
  stripLastExt ((filename.splitOn '/').getLastD [])

/-- `MusicDisplay._extract_metadata`: a total function of the parse
outcome — it never raises.  On a raised `MP3(filename)` (`parsed = none`)
the bare `except` falls back to the extension-stripped base name and the
initial `"Unknown Album"`; with readable tags each missing frame falls
back individually. -/
def extract_metadata (filename : List Char) (parsed : Option Id3Tags) :
    List Char × List Char :=
  match parsed with
  | none => (fallbackTitle filename, unknownAlbumName)
  | some tags =>
      ((match tags.title with
        | some t => t
        | none => fallbackTitle filename),
       (match tags.album with
        | some a => a
        | none => unknownAlbumName))

/-- `MusicDisplay.paste_album_art` with `return_image=True`, as a function
of the artwork-parse outcome: `none` means `ID3(mp3_file)` raised or no
`APIC` frame carried decodable image data; any failure yields
`(False, None)` via the bare `except`. -/
def paste_album_art (artParse : Option Artwork) : Bool × Option Artwork :=
  match artParse with
  | some art => (true, some art)
  | none => (false, none)

/-- The doubled pixel weight of `_extract_colors_from_artwork`:
`1.0` when `brightness = mean(R,G,B) < 128` (i.e. `R+G+B < 384`), else
`0.5` — stored as `2` and `1` to stay in integers. -/
def colorWeight2 (p : Color) : Nat := if p.r + p.g + p.b < 384 then 2 else 1

/-- `MusicDisplay._extract_colors_from_artwork` on the 50x50-downsized
pixel list: weighted channel averages, darkened by 0.4 for the background
and scaled by 0.8 (capped at 255) for the accent.  The float arithmetic of
the source is modelled exactly over the rationals it computes, with
truncation toward zero written as `Nat` division (`*2/5` for `*0.4`,
`*4/5` for `*0.8`, doubled weights cancelling). -/
def extract_colors_from_artwork (pixels : Artwork) : Color × Color :=
  let rt := (pixels.map (fun p => p.r * colorWeight2 p)).sum
  let gt := (pixels.map (fun p => p.g * colorWeight2 p)).sum
  let bt := (pixels.map (fun p => p.b * colorWeight2 p)).sum
  let cnt := (pixels.map colorWeight2).sum
  if 0 < cnt then
    (⟨rt / cnt * 2 / 5, gt / cnt * 2 / 5, bt / cnt * 2 / 5⟩,
     ⟨min 255 (rt / cnt * 4 / 5), min 255 (gt / cnt * 4 / 5),
      min 255 (bt / cnt * 4 / 5)⟩)
  else (DARK_BG, GREEN)

/-! ## The now-playing render (music_display.py, `update_now_playing`) -/

/-- One drawing command issued while composing the pixel buffer.  Each
constructor's arguments determine its pixels (fonts and geometry are
fixed), so two renders produce the same buffer iff they produce the same
command list. -/
inductive RenderOp where
  | clearOp (c : Color)
  | volBarOp (volume : Int) (accent : Color)
  | pasteArtOp (x y size : Int) (art : Artwork)
  | placeholderOp (x y size : Int)
  | textBgOp (x1 y1 x2 y2 : Int)
  | textOp (x y : Int) (s : List Char) (c : Color)
  | pauseOverlayOp
deriving DecidableEq, Repr

/-- The per-call inputs of `update_now_playing`: the track path, the
metadata / artwork parse outcomes for it, the state string, volume, the
force flag and the clock. -/
structure RenderInput where
  filename : List Char
  tags : Option Id3Tags
  artParse : Option Artwork
  pstate : String
  volume : Int
  forceShowVolume : Bool
  now : ℚ
deriving DecidableEq, Repr

/-- `MusicDisplay.update_now_playing` as a pure function from the stored
display state and the call inputs to the composed buffer (as its drawing
trace) and the updated display state.  It follows the source order:
`clear()` with the *stored* background color, volume bar (with the
*stored* accent color), album art or placeholder - updating the stored
theme colors via `_extract_colors_from_artwork` or resetting them to the
defaults - then text background, truncated title/album text, and the pause
overlay.  The `(has_art, artwork_image)` protocol of `paste_album_art` is
inlined as the match on `artParse`. -/
def update_now_playing (w : List Char → Nat) (d : DisplayState) (inp : RenderInput) :
    List RenderOp × DisplayState :=
  let clearColor := d.currentBgColor.getD DARK_BG
  let showVol := volume_bar_visible inp.forceShowVolume d.lastVolumeChangeTime inp.now
  let volBarWidth : Int := if showVol then 30 else 0
  let mainW := screenWidth - volBarWidth
  let volOps : List RenderOp :=
    if showVol then [RenderOp.volBarOp inp.volume (d.currentAccentColor.getD GREEN)]
    else []
  let meta := extract_metadata inp.filename inp.tags
  let artSize : Int := 160
  let artX := (mainW - artSize).fdiv 2
  let artY : Int := 15
  let art : List RenderOp × Option Color × Option Color :=
    if inp.pstate = "PLAYING" ∨ inp.pstate = "PAUSED" then
      match inp.artParse with
      | some a =>
          ([RenderOp.pasteArtOp artX artY artSize a],
           some (extract_colors_from_artwork a).1,
           some (extract_colors_from_artwork a).2)
      | none =>
          ([RenderOp.placeholderOp artX artY artSize], some DARK_BG, some GREEN)
    else ([RenderOp.placeholderOp artX artY artSize], some DARK_BG, some GREEN)
  let titleY := artY + artSize + 10
  let textX : Int := 50
  let textMaxW := mainW - textX - 10
  let albumY := titleY + 30
  let textOps : List RenderOp :=
    [RenderOp.textBgOp (textX - 12) (titleY - 12) (mainW - 10) (albumY + 25),
     RenderOp.textOp textX titleY
       (draw_text_with_truncate w meta.1 textMaxW.toNat) WHITE,
     RenderOp.textOp textX albumY
       (draw_text_with_truncate w meta.2 textMaxW.toNat) GRAY]
  let pauseOps : List RenderOp :=
    if inp.pstate = "PAUSED" then [RenderOp.pauseOverlayOp] else []
  (RenderOp.clearOp clearColor :: (volOps ++ art.1 ++ textOps ++ pauseOps),
   { d with currentBgColor := art.2.1, currentAccentColor := art.2.2 })

/-- The theme colors `update_now_playing` leaves behind, which depend only
on the call inputs, never on the previous display state. -/
def renderColors (inp : RenderInput) : Option Color × Option Color :=
  if inp.pstate = "PLAYING" ∨ inp.pstate = "PAUSED" then
    match inp.artParse with
    | some a =>
        (some (extract_colors_from_artwork a).1,
         some (extract_colors_from_artwork a).2)
    | none => (some DARK_BG, some GREEN)
  else (some DARK_BG, some GREEN)

theorem update_snd (w : List Char → Nat) (d : DisplayState) (inp : RenderInput) :
    (update_now_playing w d inp).2 =
      ⟨d.lastVolumeChangeTime, (renderColors inp).1, (renderColors inp).2⟩ := by
  simp only [update_now_playing, renderColors]
  split
  · cases inp.artParse <;> rfl
  · rfl

/-! ## Claim C8: metadata extraction never fails outward -/

/-- Recognizer for the artwork-pasting command, to state that a failed
artwork parse displays no artwork. -/
def isPasteArtOp : RenderOp → Bool
  | RenderOp.pasteArtOp _ _ _ _ => true
  | _ => false

/-- C8: metadata extraction is a total function of the parse outcome (it
never raises to its caller), and on any extraction failure it falls back to
the filename without extension, `"Unknown Album"`, no artwork drawn, and
the fixed default background/accent theme (`DARK_BG` / `GREEN`).  The
third conjunct checks the filename fallback concretely. -/
theorem metadata_extraction_fallback (filename : List Char) (w : List Char → Nat)
    (d : DisplayState) (tags0 : Option Id3Tags) (st : String) (vol : Int)
    (f : Bool) (now : ℚ) :
    extract_metadata filename none = (fallbackTitle filename, unknownAlbumName) ∧
    extract_metadata filename (some ⟨none, none⟩)
      = (fallbackTitle filename, unknownAlbumName) ∧
    fallbackTitle ("/mnt/usbdrive/song.mp3".toList) = "song".toList ∧
    paste_album_art none = (false, none) ∧
    (update_now_playing w d ⟨filename, tags0, none, st, vol, f, now⟩).2.currentBgColor
      = some DARK_BG ∧
    (update_now_playing w d ⟨filename, tags0, none, st, vol, f, now⟩).2.currentAccentColor
      = some GREEN ∧
    ((update_now_playing w d ⟨filename, tags0, none, st, vol, f, now⟩).1.all
      (fun op => !isPasteArtOp op)) = true := by
  refine ⟨rfl, rfl, by decide, rfl, ?_, ?_, ?_⟩
  · rw [update_snd]
    show (renderColors ⟨filename, tags0, none, st, vol, f, now⟩).1 = some DARK_BG
    unfold renderColors
    split <;> rfl
  · rw [update_snd]
    show (renderColors ⟨filename, tags0, none, st, vol, f, now⟩).2 = some GREEN
    unfold renderColors
    split <;> rfl
  · simp only [update_now_playing]
    split <;> split <;> simp [isPasteArtOp]

/-! ## Claim C9: render idempotence -/

/-- The identity width function, for the concrete counterexample. -/
def wLen : List Char → Nat := fun l => l.length

/-- A small all-red artwork whose extracted background color differs from
the default theme. -/
def redArt : Artwork := List.replicate 4 ⟨200, 40, 40⟩

/-- Render inputs: playing a track with red artwork. -/
def inpRed : RenderInput :=
  ⟨"red.mp3".toList, none, some redArt, "PLAYING", 80, false, 0⟩

/-- Render inputs: stopped, no artwork, same clock. -/
def inpStopped : RenderInput :=
  ⟨"red.mp3".toList, none, none, "STOPPED", 80, false, 0⟩

/-- C9 counterexample: after rendering a track with red artwork (which
stores a red-derived background), rendering the stopped screen once
produces a buffer whose background fill is the stored red theme, while
rendering it a second time with identical inputs produces the default
background — the second call's buffer differs from the first call's. -/
theorem render_not_idempotent_cex :
    (update_now_playing wLen
        (update_now_playing wLen initDisplay inpRed).2 inpStopped).1 ≠
    (update_now_playing wLen
        (update_now_playing wLen
          (update_now_playing wLen initDisplay inpRed).2 inpStopped).2
        inpStopped).1 := by
  decide

/-- C9 amended: rendering reaches a fixed point after one call — for every
initial display state and fixed inputs, the second call's buffer and
resulting state equal the third call's (so from the second call on the
render is repeat-safe); the first call's buffer may differ only because
the background/accent theme persisted from the previously displayed
track. -/
theorem render_idempotent_from_second_call (w : List Char → Nat)
    (d : DisplayState) (inp : RenderInput) :
    (update_now_playing w (update_now_playing w d inp).2 inp).1 =
      (update_now_playing w
        (update_now_playing w (update_now_playing w d inp).2 inp).2 inp).1 ∧
    (update_now_playing w (update_now_playing w d inp).2 inp).2 =
      (update_now_playing w
        (update_now_playing w (update_now_playing w d inp).2 inp).2 inp).2 := by
  have hdd : (update_now_playing w (update_now_playing w d inp).2 inp).2
      = (update_now_playing w d inp).2 := by
    rw [update_snd w (update_now_playing w d inp).2 inp, update_snd w d inp]
  constructor
  · rw [hdd]
  · rw [hdd]
    exact hdd.symm

end Musicbox
